import Mathlib

/-!
Verification of the istio-k8s-operator reconciliation and relation-data engine.

This development shallowly embeds the Python source of the istio-k8s charm
(`src/charm.py`, `src/istioctl.py`, `src/config.py`) and its relation
libraries (`lib/charms/istio_k8s/v0/istio_info.py`, `istio_metadata.py`,
`istio_ingress_config.py`) into Lean:

* Python `dict`s (relation databags, manifest documents, settings maps) are
  modelled as ordered association lists with Python dict semantics: key
  assignment replaces the value in place (keeping insertion order) or appends
  a new entry, and `dict.update` folds assignment over the updates.
* Python values appearing in nested provider configurations and manifest
  documents are modelled by the inductive `ConfigValue` (strings, ints,
  bools, `None`, dicts, lists).
* Exceptions are modelled with `Except`: pydantic validation errors and the
  topology `ValueError` raised for multiply-related applications are the
  constructors of `ReadError`; `istioctl` subprocess failures are
  `IstioctlError` values.
* The external collaborators (the `istioctl` subprocess, the YAML codec, the
  Kubernetes client, the ops event substrate) are treated as parameters or
  as inputs, exactly as the spec designates them external.
-/

/-- Lookup in a Python dict modelled as an ordered association list
(`d.get(k)` / `k in d`): the first entry with the key (Python dicts have
unique keys, so assoc lists built by `pySet`/`pyUpdate` keep at most one). -/
def pyGet? (d : List (String × α)) (k : String) : Option α :=
  (d.find? (fun p => p.1 == k)).map (fun p => p.2)

/-- Python dict assignment `d[k] = v`: replace in place (keeping the key's
insertion position) if the key exists, otherwise append at the end. -/
def pySet (d : List (String × α)) (k : String) (v : α) : List (String × α) :=
  if d.any (fun p => p.1 == k) then
    d.map (fun p => if p.1 == k then (k, v) else p)
  else d ++ [(k, v)]

/-- Python `d.update(e)`: assign every entry of `e` into `d`, in order. -/
def pyUpdate (d e : List (String × α)) : List (String × α) :=
  e.foldl (fun acc kv => pySet acc kv.1 kv.2) d

/-- Python dict indexing `d[k]`, raising `KeyError` when absent. -/
def pyIndex (d : List (String × α)) (k : String) : Except String α :=
  match pyGet? d k with
  | Option.some v => Except.ok v
  | Option.none => Except.error ("KeyError: " ++ "\x27" ++ k ++ "\x27")

/-- The keys of a Python dict modelled as an association list. -/
def pyKeys (d : List (String × α)) : List String := d.map Prod.fst

/-- Model of the Python values handled by the charm's configuration
flattening and manifest merging: scalars (str, int, bool, None), dicts and
lists.  This mirrors what `yaml.safe_load` / pydantic `model_dump` produce. -/
inductive ConfigValue where
  | str (s : String)
  | int (n : Int)
  | bool (b : Bool)
  | none
  | dict (entries : List (String × ConfigValue))
  | list (items : List ConfigValue)
deriving Repr

/-- A Python dict with `ConfigValue` values (a parsed manifest document, a
provider-configuration object, ...). -/
abbrev PyDict := List (String × ConfigValue)

/-- Truthiness of a `ConfigValue` (Python `if value:`). -/
def ConfigValue.truthy : ConfigValue → Bool
  | .str s => !s.isEmpty
  | .int n => n != 0
  | .bool b => b
  | .none => false
  | .dict entries => !entries.isEmpty
  | .list items => !items.isEmpty

/-- Python `value == someString` where `value` is an arbitrary object:
true only when `value` is that very string. -/
def ConfigValue.eqString : ConfigValue → String → Bool
  | .str s, t => s == t
  | _, _ => false

/-- The child key used by `flatten_config` for a mapping entry:
`f"{prefix}.{k}" if prefix else k` (charm.py line 554). -/
def childKey (pfx k : String) : String :=
  if pfx == "" then k else pfx ++ "." ++ k

/-- The child key used by `flatten_config` for a sequence item:
`f"{prefix}[{i}]" if prefix else f"[{i}]"` (charm.py line 558). -/
def indexKey (pfx : String) (i : Nat) : String :=
  if pfx == "" then "[" ++ toString i ++ "]" else pfx ++ "[" ++ toString i ++ "]"

mutual

/-- `charm.flatten_config(value, prefix="")` (charm.py lines 549-562):
recursively flatten a nested dict/list structure into a flat dict.  The
Python function accumulates with `flat.update(...)`, modelled by `pyUpdate`. -/
def flatten_config (v : ConfigValue) (pfx : String) : PyDict :=
  match v with
  | .dict entries => flattenConfigDict entries pfx []
  | .list items => flattenConfigList items pfx 0 []
  | other => [(pfx, other)]

/-- The dict branch of `flatten_config`: `for k, v in value.items():
flat.update(flatten_config(v, new_prefix))`, with `flat` as accumulator. -/
def flattenConfigDict (entries : List (String × ConfigValue)) (pfx : String)
    (flat : PyDict) : PyDict :=
  match entries with
  | [] => flat
  | (k, v) :: rest =>
      flattenConfigDict rest pfx (pyUpdate flat (flatten_config v (childKey pfx k)))

/-- The list/tuple branch of `flatten_config`: `for i, item in
enumerate(value): flat.update(flatten_config(item, new_prefix))`. -/
def flattenConfigList (items : List ConfigValue) (pfx : String) (i : Nat)
    (flat : PyDict) : PyDict :=
  match items with
  | [] => flat
  | v :: rest =>
      flattenConfigList rest pfx (i + 1) (pyUpdate flat (flatten_config v (indexKey pfx i)))

end

mutual

/-- The leaf entries of a nested structure in traversal order, one entry per
leaf scalar, each addressed by its `flatten_config` key path.  This is the
reference ("no-overwrite") flattening used to state what `flatten_config`
produces when the generated key paths do not collide. -/
def flattenLeaves (v : ConfigValue) (pfx : String) : PyDict :=
  match v with
  | .dict entries => flattenLeavesDict entries pfx
  | .list items => flattenLeavesList items pfx 0
  | other => [(pfx, other)]

/-- Leaf entries contributed by a dict's entries, concatenated in order. -/
def flattenLeavesDict (entries : List (String × ConfigValue)) (pfx : String) : PyDict :=
  match entries with
  | [] => []
  | (k, v) :: rest => flattenLeaves v (childKey pfx k) ++ flattenLeavesDict rest pfx

/-- Leaf entries contributed by a list's items, concatenated in order. -/
def flattenLeavesList (items : List ConfigValue) (pfx : String) (i : Nat) : PyDict :=
  match items with
  | [] => []
  | v :: rest => flattenLeaves v (indexKey pfx i) ++ flattenLeavesList rest pfx (i + 1)

end

mutual

/-- Number of leaf scalars in a nested structure. -/
def leafCount : ConfigValue → Nat
  | .dict entries => leafCountDict entries
  | .list items => leafCountList items
  | _ => 1

/-- Number of leaf scalars under a dict's entries. -/
def leafCountDict : List (String × ConfigValue) → Nat
  | [] => 0
  | (_, v) :: rest => leafCount v + leafCountDict rest

/-- Number of leaf scalars under a list's items. -/
def leafCountList : List ConfigValue → Nat
  | [] => 0
  | v :: rest => leafCount v + leafCountList rest

end

/-! ## Relation databags and schema validation

A relation databag is a flat `str -> str` Python dict (the ops substrate).
Reading remote data validates it against a pydantic schema; pydantic raises
a `ValidationError` for a non-empty databag that does not satisfy the
schema, and the istio-info/istio-metadata readers raise a `ValueError` when
more than one application is related. -/

/-- A relation databag: an ordered `str -> str` mapping. -/
abbrev Databag := List (String × String)

/-- The exceptions that can escape a relation-data read:
`validation` models a pydantic `ValidationError` (or cosl
`DataValidationError`), `multipleRelations` models the `ValueError` raised
by `get_data` when more than one application is related. -/
inductive ReadError where
  | validation (msg : String)
  | multipleRelations (msg : String)
deriving Repr, DecidableEq

/-- The message of the `ValueError` raised by `Receiver.get_data`
(istio_info.py line 115) and `IstioMetadataRequirer.get_data`
(istio_metadata.py line 153). -/
def multipleRelationsMsg : String :=
  "Cannot get_info when more than one application is related."

/-- `istio_info.Receiver.get_data` (istio_info.py lines 103-121), generic in
the interface schema: the schema's pydantic constructor is the `parse`
parameter.  Returns `None` with no relations; raises `ValueError` with more
than one; with exactly one, returns `None` for an empty remote databag and
otherwise validates it (a pydantic `ValidationError` propagates). -/
def Receiver.get_data (parse : Databag → Except ReadError α)
    (relations : List Databag) : Except ReadError (Option α) :=
  match relations with
  | [] => Except.ok Option.none
  | [bag] =>
      if bag.isEmpty then Except.ok Option.none
      else (parse bag).map Option.some
  | _ => Except.error (.multipleRelations multipleRelationsMsg)

/-- `istio_info.Receiver.get_data_from_all_relations` (istio_info.py lines
123-133): one entry per relation instance in relation order, `None` for an
empty remote databag; a schema validation error propagates. -/
def Receiver.get_data_from_all_relations (parse : Databag → Except ReadError α) :
    List Databag → Except ReadError (List (Option α))
  | [] => Except.ok []
  | bag :: rest =>
      if bag.isEmpty then
        (Receiver.get_data_from_all_relations parse rest).map (fun tl => Option.none :: tl)
      else
        match parse bag with
        | Except.error e => Except.error e
        | Except.ok v =>
            (Receiver.get_data_from_all_relations parse rest).map (fun tl => Option.some v :: tl)

/-- Schema of the istio-info interface (`IstioInfoAppData`,
istio_info.py lines 225-231): one required string field `root_namespace`. -/
structure IstioInfoAppData where
  root_namespace : String
deriving Repr, DecidableEq

/-- Validation of a databag against `IstioInfoAppData` (the pydantic
constructor `self._schema(**raw_data)`): the required `root_namespace` field
must be present; extra keys are ignored. -/
def IstioInfoAppData.validate (bag : Databag) : Except ReadError IstioInfoAppData :=
  match pyGet? bag "root_namespace" with
  | Option.some v => Except.ok ⟨v⟩
  | Option.none =>
      Except.error (.validation "1 validation error for IstioInfoAppData: root_namespace Field required")

/-- cosl `DatabagModelV2.dump` for `IstioInfoAppData`: serialize the model
into a databag (string fields are stored as plain strings; the scenario
tests assert the published databag is `{"root_namespace": <value>}`). -/
def IstioInfoAppData.dump (d : IstioInfoAppData) : Databag :=
  [("root_namespace", d.root_namespace)]

/-- cosl `DatabagModelV2.load` for `IstioInfoAppData`: parse a databag back
into the model, raising a `DataValidationError` when it does not conform. -/
def IstioInfoAppData.load (bag : Databag) : Except ReadError IstioInfoAppData :=
  IstioInfoAppData.validate bag

/-- Schema of the istio-metadata interface (`IstioMetadataAppData`,
istio_metadata.py lines 102-108): one required string field
`root_namespace`. -/
structure IstioMetadataAppData where
  root_namespace : String
deriving Repr, DecidableEq

/-- `IstioMetadataAppData.model_validate(raw_data_dict)`: the required
`root_namespace` field must be present; extra keys are ignored. -/
def IstioMetadataAppData.validate (bag : Databag) : Except ReadError IstioMetadataAppData :=
  match pyGet? bag "root_namespace" with
  | Option.some v => Except.ok ⟨v⟩
  | Option.none =>
      Except.error (.validation "1 validation error for IstioMetadataAppData: root_namespace Field required")

/-- `IstioMetadataRequirer.get_data` (istio_metadata.py lines 142-161):
`None` with no relations; `ValueError` with more than one; with exactly one,
`None` for an empty (falsy) remote databag, otherwise
`IstioMetadataAppData.model_validate` — whose `ValidationError` is not
caught and propagates out of the read. -/
def IstioMetadataRequirer.get_data (relations : List Databag) :
    Except ReadError (Option IstioMetadataAppData) :=
  match relations with
  | [] => Except.ok Option.none
  | [bag] =>
      if bag.isEmpty then Except.ok Option.none
      else (IstioMetadataAppData.validate bag).map Option.some
  | _ => Except.error (.multipleRelations multipleRelationsMsg)

/-! ## istio_info Sender -/

/-- The state a `Sender` acts on: this application's databag on every
relation instance of the wrapped relation name. -/
structure SenderState where
  relations : List Databag
deriving Repr, DecidableEq

/-- `istio_info.Sender.send_data` (istio_info.py lines 190-199), generic in
the schema's cosl `dump`: write the serialized data to this application's
databag of every relation instance. -/
def Sender.send_data (dump : α → Databag) (data : α) (st : SenderState) : SenderState :=
  ⟨st.relations.map (fun _ => dump data)⟩

/-- `istio_info.Sender._is_relation_data_up_to_date` (istio_info.py lines
201-211): for every relation instance, load this application's stored
databag (a `DataValidationError` yields `False`) and compare it,
field-for-field, with the data the sender should currently publish. -/
def Sender._is_relation_data_up_to_date [DecidableEq α]
    (load : Databag → Except ReadError α) (data : α) (st : SenderState) : Bool :=
  st.relations.all (fun bag =>
    match load bag with
    | Except.ok stored => stored == data
    | Except.error _ => false)

/-- `istio_info.Sender.is_ready` (istio_info.py lines 213-218). -/
def Sender.is_ready [DecidableEq α] (load : Databag → Except ReadError α)
    (data : α) (st : SenderState) : Bool :=
  Sender._is_relation_data_up_to_date load data st

/-- `istio_info.Sender.handle_send_data_event` (istio_info.py lines
181-184): only the leader sends; a non-leader leaves every databag as is. -/
def Sender.handle_send_data_event (dump : α → Databag) (isLeader : Bool)
    (data : α) (st : SenderState) : SenderState :=
  if isLeader then Sender.send_data dump data st else st

/-! ## istio_ingress_config -/

/-- `FAKE_EXT_AUTHZ_SERVICE_NAME` (istio_ingress_config.py line 75). -/
def FAKE_EXT_AUTHZ_SERVICE_NAME : String := "fake_host"

/-- `FAKE_EXT_AUTHZ_PORT` (istio_ingress_config.py line 76). -/
def FAKE_EXT_AUTHZ_PORT : String := "5432"

/-- Strip one leading sign character, as Python `int()` does. -/
def pyStripSign : List Char → List Char
  | [] => []
  | c :: rest => if c == Char.ofNat 45 || c == Char.ofNat 43 then rest else c :: rest

/-- Whether Python `int(s)` succeeds on a string: optional surrounding
whitespace, an optional sign (`-` is code point 45, `+` is 43), then at
least one digit (the form taken by every port value exchanged on this
interface). -/
def pyIntConvertible (s : String) : Bool :=
  let t := ((s.toList.dropWhile Char.isWhitespace).reverse.dropWhile Char.isWhitespace).reverse
  let t2 := pyStripSign t
  !t2.isEmpty && t2.all Char.isDigit

/-- `ProviderIngressConfigData` (istio_ingress_config.py lines 81-105): two
optional string fields, with a field validator requiring
`ext_authz_port` to be convertible to an integer. -/
structure ProviderIngressConfigData where
  ext_authz_service_name : Option String
  ext_authz_port : Option String
deriving Repr, DecidableEq

/-- `ProviderIngressConfigData.model_validate(raw_data)`: absent fields
default to `None`; extra keys are ignored; a present `ext_authz_port` must
be convertible to `int` or pydantic raises a `ValidationError`. -/
def ProviderIngressConfigData.validate (bag : Databag) :
    Except ReadError ProviderIngressConfigData :=
  let name := pyGet? bag "ext_authz_service_name"
  match pyGet? bag "ext_authz_port" with
  | Option.some p =>
      if pyIntConvertible p then Except.ok ⟨name, Option.some p⟩
      else Except.error (.validation ("ext_authz_port must be convertible to an integer, got " ++ p))
  | Option.none => Except.ok ⟨name, Option.none⟩

/-- `IngressConfigRequirer.get_provider_ext_authz_info` (istio_ingress_config.py
lines 253-274) applied to one relation's remote app databag: `None` for an
empty (falsy) databag; otherwise validate — catching any validation error,
logging it at debug level, and returning `None`. -/
def IngressConfigRequirer.get_provider_ext_authz_info (bag : Databag) :
    Option ProviderIngressConfigData :=
  if bag.isEmpty then Option.none
  else
    match ProviderIngressConfigData.validate bag with
    | Except.ok d => Option.some d
    | Except.error _ => Option.none

/-- `IngressConfigRequirer.is_ready` (istio_ingress_config.py lines 294-309):
the provider databag validates and both fields are present. -/
def IngressConfigRequirer.is_ready (bag : Databag) : Bool :=
  match IngressConfigRequirer.get_provider_ext_authz_info bag with
  | Option.none => false
  | Option.some d => d.ext_authz_service_name.isSome && d.ext_authz_port.isSome

/-- `IngressConfigRequirer.is_fake_authz_config` (istio_ingress_config.py
lines 276-292): the provider databag validates and carries exactly the
sentinel pair (`fake_host`, `"5432"`). -/
def IngressConfigRequirer.is_fake_authz_config (bag : Databag) : Bool :=
  match IngressConfigRequirer.get_provider_ext_authz_info bag with
  | Option.some d =>
      d.ext_authz_service_name == Option.some FAKE_EXT_AUTHZ_SERVICE_NAME
        && d.ext_authz_port == Option.some FAKE_EXT_AUTHZ_PORT
  | Option.none => false

/-- The databag payload written by `IngressConfigProvider.publish`
(istio_ingress_config.py lines 150-167): `model_dump(...,
exclude_defaults=True)`, so fields left at their `None` default are
omitted. -/
def providerPublishPayload (name port : Option String) : Databag :=
  (match name with
   | Option.some n => [("ext_authz_service_name", n)]
   | Option.none => [])
  ++ (match port with
      | Option.some p => [("ext_authz_port", p)]
      | Option.none => [])

/-- `IngressConfigProvider.publish` (istio_ingress_config.py lines 150-167):
construct `ProviderIngressConfigData` (whose port validator may raise) and
`databag.update(data)` on every relation instance's local app databag. -/
def IngressConfigProvider.publish (name port : Option String)
    (relations : List Databag) : Except ReadError (List Databag) :=
  match port with
  | Option.some p =>
      if pyIntConvertible p then
        Except.ok (relations.map (fun bag => pyUpdate bag (providerPublishPayload name port)))
      else
        Except.error (.validation ("ext_authz_port must be convertible to an integer, got " ++ p))
  | Option.none =>
      Except.ok (relations.map (fun bag => pyUpdate bag (providerPublishPayload name port)))

/-- `IngressConfigProvider.clear` (istio_ingress_config.py lines 169-177):
the storage layer cannot be cleared across models, so publish the fixed
sentinel pair instead. -/
def IngressConfigProvider.clear (relations : List Databag) :
    Except ReadError (List Databag) :=
  IngressConfigProvider.publish (Option.some FAKE_EXT_AUTHZ_SERVICE_NAME)
    (Option.some FAKE_EXT_AUTHZ_PORT) relations

/-! ## istioctl.py -/

mutual

/-- Python `repr` of a value, as used by f-string interpolation of dicts and
lists (string escaping inside `repr` is simplified to plain quoting; the
charm only ever passes scalar setting values, see `flatten_config`). -/
def pyRepr : ConfigValue → String
  | .str s => "\x27" ++ s ++ "\x27"
  | .int n => toString n
  | .bool b => if b then "True" else "False"
  | .none => "None"
  | .dict entries => "\x7b" ++ String.intercalate ", " (pyReprEntries entries) ++ "\x7d"
  | .list items => "[" ++ String.intercalate ", " (pyReprItems items) ++ "]"

/-- `repr` of a dict's entries. -/
def pyReprEntries : List (String × ConfigValue) → List String
  | [] => []
  | (k, v) :: rest => ("\x27" ++ k ++ "\x27: " ++ pyRepr v) :: pyReprEntries rest

/-- `repr` of a list's items. -/
def pyReprItems : List ConfigValue → List String
  | [] => []
  | v :: rest => pyRepr v :: pyReprItems rest

end

/-- Python `str(value)` / f-string interpolation of a value. -/
def pyStr : ConfigValue → String
  | .str s => s
  | other => pyRepr other

/-- `istioctl.settings_dict_to_args` (istioctl.py lines 289-300): one
`--set key=value` pair per settings entry, order-preserving. -/
def settings_dict_to_args (settings : PyDict) : List String :=
  settings.flatMap (fun kv => ["--set", kv.1 ++ "=" ++ pyStr kv.2])

/-- `IstioctlError` (istioctl.py lines 15-33): message plus optional return
code and captured stdout/stderr. -/
structure IstioctlError where
  message : String
  returncode : Option Int
  stdout : Option String
  stderr : Option String
deriving Repr, DecidableEq

/-- The outcome of one subprocess invocation (the external istioctl binary
is an opaque collaborator, so its behaviour is an input). -/
structure SubprocessResult where
  returncode : Int
  stdout : String
  stderr : String
deriving Repr, DecidableEq

/-- The `Istioctl` wrapper (istioctl.py lines 36-61); `istioNamespace`
models the constructor's `namespace` argument. -/
structure Istioctl where
  istioctl_path : String
  istioNamespace : String
  profile : String
  setting_overrides : PyDict
deriving Repr

/-- `Istioctl._args` (istioctl.py lines 63-70): base settings (profile,
namespace) updated with the caller's overrides, serialized to `--set`
pairs. -/
def Istioctl._args (ictl : Istioctl) : List String :=
  settings_dict_to_args
    (pyUpdate
      [("profile", .str ictl.profile),
       ("values.global.istioNamespace", .str ictl.istioNamespace)]
      ictl.setting_overrides)

/-- `Istioctl._run` (istioctl.py lines 123-140): `subprocess.check_output`
raises `CalledProcessError` exactly when the return code is non-zero, which
`_run` converts to an `IstioctlError` carrying the return code and the
captured stdout/stderr; on success the decoded stdout is returned. -/
def Istioctl._run (command : List String) (res : SubprocessResult) :
    Except IstioctlError String :=
  if res.returncode != 0 then
    Except.error
      ⟨"Failed to run command " ++ String.intercalate " " command
          ++ " with error code " ++ toString res.returncode,
        Option.some res.returncode, Option.some res.stdout, Option.some res.stderr⟩
  else Except.ok res.stdout

/-- A lightkube override `Resource` as consumed by
`_apply_manifest_overrides`: its class name (`kind`), its
`metadata.name`/`metadata.namespace` (either may be Python `None`), and its
`to_dict()` serialization. -/
structure OverrideResource where
  kind : String
  metadata_name : Option String
  metadata_namespace : Option String
  toDict : PyDict
deriving Repr

/-- Python `value == optionalString` where the right side is a `str` or
`None`: equal to a string only when `value` is that string, equal to `None`
only when `value` is `None`. -/
def pyEqValueOptStr (v : ConfigValue) : Option String → Bool
  | Option.some s => v.eqString s
  | Option.none =>
      match v with
      | .none => true
      | _ => false

/-- `manifest_doc.get("metadata", {})` for a parsed manifest document whose
`metadata` field, when present, is a mapping (a non-mapping `metadata`
would make the Python `.get` chain raise `AttributeError`; manifest
documents always carry mapping metadata). -/
def docMetadata (doc : PyDict) : PyDict :=
  match pyGet? doc "metadata" with
  | Option.some (.dict m) => m
  | _ => []

/-- `istioctl._is_same_resource` (istioctl.py lines 250-271): match a
manifest document against an override by (kind, metadata.name,
metadata.namespace), with `""` defaults on the manifest side. -/
def _is_same_resource (doc : PyDict) (ov : OverrideResource) : Bool :=
  let manifest_kind := (pyGet? doc "kind").getD (.str "")
  let meta := docMetadata doc
  let manifest_name := (pyGet? meta "name").getD (.str "")
  let manifest_ns := (pyGet? meta "namespace").getD (.str "")
  manifest_kind.eqString ov.kind
    && pyEqValueOptStr manifest_name ov.metadata_name
    && pyEqValueOptStr manifest_ns ov.metadata_namespace

mutual

/-- `istioctl._deep_merge_dict` (istioctl.py lines 274-286): fold every
update entry into the base dict, in order. -/
def _deep_merge_dict (base : PyDict) : PyDict → PyDict
  | [] => base
  | (k, v) :: rest => _deep_merge_dict (deepMergeStep base k v) rest

/-- One iteration of the `_deep_merge_dict` loop: when the update value and
the base's existing value under the key are both dicts, recurse into them
(the in-place recursive merge leaves `base[key]` at its position with the
merged content); any other update value replaces `base[key]` wholesale. -/
def deepMergeStep (base : PyDict) (k : String) : ConfigValue → PyDict
  | .dict ud =>
      (match pyGet? base k with
       | Option.some (.dict bd) => pySet base k (.dict (_deep_merge_dict bd ud))
       | _ => pySet base k (.dict ud))
  | v => pySet base k v

end

/-- The inner loop of `_apply_manifest_overrides` (istioctl.py lines
236-245): deep-merge the first matching override into the document
(`break` after the first match), or leave the document unchanged. -/
def applyFirstOverride (doc : PyDict) : List OverrideResource → PyDict
  | [] => doc
  | ov :: rest =>
      if _is_same_resource doc ov then _deep_merge_dict doc ov.toDict
      else applyFirstOverride doc rest

/-- `istioctl._apply_manifest_overrides` (istioctl.py lines 224-247) on the
parsed document stream (`yaml.safe_load_all` / `yaml.dump_all` are the
external YAML codec): empty documents (`None`) are skipped, every other
document receives its first matching override, in place. -/
def _apply_manifest_overrides (docs : List (Option PyDict))
    (overrides : List OverrideResource) : List (Option PyDict) :=
  docs.map (fun d =>
    match d with
    | Option.none => Option.none
    | Option.some doc => Option.some (applyFirstOverride doc overrides))

/-- `Istioctl.manifest_generate` (istioctl.py lines 78-109): run
`istioctl manifest generate` with the instance settings plus one
`components.<name>.enabled=true` setting per requested component; on
success return the decoded stdout, applying the override merge (through the
external YAML codec `yamlLoadAll`/`yamlDumpAll`) when `overrides` is
non-empty; a subprocess failure propagates as `IstioctlError`. -/
def Istioctl.manifest_generate (ictl : Istioctl) (components : List String)
    (overrides : List OverrideResource)
    (yamlLoadAll : String → List (Option PyDict))
    (yamlDumpAll : List (Option PyDict) → String)
    (res : SubprocessResult) : Except IstioctlError String :=
  let components_args :=
    components.flatMap (fun c => ["--set", "components." ++ c ++ ".enabled=true"])
  let args := ["manifest", "generate"] ++ Istioctl._args ictl ++ components_args
  match Istioctl._run (ictl.istioctl_path :: args) res with
  | Except.error e => Except.error e
  | Except.ok manifest_yaml =>
      if overrides.isEmpty then Except.ok manifest_yaml
      else Except.ok (yamlDumpAll (_apply_manifest_overrides (yamlLoadAll manifest_yaml) overrides))

/-! ## charm.py -/

/-- `config.CharmConfig` (config.py lines 6-12): the pydantic model of the
charm configuration — exactly four declared fields; pydantic ignores any
extra keys by default. -/
structure CharmConfig where
  ambient : Bool
  cni_bin_dir : String
  cni_conf_dir : String
  auto_allow_waypoint_policy : Bool
deriving Repr, DecidableEq

/-- `IstioCoreCharm.parsed_config` (charm.py lines 227-233):
`CharmConfig(**config).dict(by_alias=True)` — the four fields under their
dashed aliases, and nothing else. -/
def IstioCoreCharm.parsed_config (c : CharmConfig) : PyDict :=
  [("ambient", .bool c.ambient),
   ("cni-bin-dir", .str c.cni_bin_dir),
   ("cni-conf-dir", .str c.cni_conf_dir),
   ("auto-allow-waypoint-policy", .bool c.auto_allow_waypoint_policy)]

/-- One istio-ingress-config relation instance as seen by the charm: the
remote (ingress) application's name and its application databag. -/
structure IngressRelation where
  appName : String
  remoteData : Databag
deriving Repr, DecidableEq

/-- Python `None`-to-value conversion for the optional pydantic fields read
into the provider entry dict. -/
def optStrToConfig : Option String → ConfigValue
  | Option.some s => .str s
  | Option.none => .none

/-- The provider configuration dict appended by
`IstioCoreCharm._external_authorizer_providers` (charm.py lines 408-426)
for one ready relation. -/
def extAuthzProviderEntry (appName : String) (info : ProviderIngressConfigData) : ConfigValue :=
  .dict
    [("name", .str ("ext_authz-" ++ appName)),
     ("envoyExtAuthzHttp", .dict
        [("service", optStrToConfig info.ext_authz_service_name),
         ("port", optStrToConfig info.ext_authz_port),
         ("includeRequestHeadersInCheck", .list [.str "authorization", .str "cookie"]),
         ("headersToUpstreamOnAllow", .list
            [.str "authorization", .str "path", .str "x-auth-request-user",
             .str "x-auth-request-email", .str "x-auth-request-access-token"]),
         ("headersToDownstreamOnAllow", .list [.str "set-cookie"]),
         ("headersToDownstreamOnDeny", .list [.str "content-type", .str "set-cookie"])])]

/-- The `get_provider_ext_authz_info` re-read inside
`_external_authorizer_providers`, guarded there by `is_ready` (the charm
dereferences the result unconditionally, `# type: ignore`). -/
def getProviderInfoOrDefault (bag : Databag) : ProviderIngressConfigData :=
  (IngressConfigRequirer.get_provider_ext_authz_info bag).getD ⟨Option.none, Option.none⟩

/-- The relation loop of `IstioCoreCharm._external_authorizer_providers`
(charm.py lines 397-427) with the accumulated `providers` list: a ready
relation carrying the fake (sentinel) config makes the loop `return
providers` immediately — entries of relations later in the list are never
built. -/
def externalAuthorizerProvidersAux (providers : List ConfigValue) :
    List IngressRelation → List ConfigValue
  | [] => providers
  | rel :: rest =>
      if IngressConfigRequirer.is_ready rel.remoteData then
        if IngressConfigRequirer.is_fake_authz_config rel.remoteData then providers
        else
          externalAuthorizerProvidersAux
            (providers ++ [extAuthzProviderEntry rel.appName (getProviderInfoOrDefault rel.remoteData)])
            rest
      else externalAuthorizerProvidersAux providers rest

/-- `IstioCoreCharm._external_authorizer_providers` (charm.py lines
397-427). -/
def IstioCoreCharm._external_authorizer_providers (relations : List IngressRelation) :
    List ConfigValue :=
  externalAuthorizerProvidersAux [] relations

/-- `IstioCoreCharm._build_extension_providers_config` (charm.py lines
429-436): flatten every provider under
`meshConfig.extensionProviders[<index>]` and merge the results. -/
def IstioCoreCharm._build_extension_providers_config (providers : List ConfigValue) : PyDict :=
  (providers.enum).foldl
    (fun config iv =>
      pyUpdate config
        (flatten_config iv.2 ("meshConfig.extensionProviders[" ++ toString iv.1 ++ "]")))
    []

/-- `IstioCoreCharm._get_istioctl` (charm.py lines 438-486).  The tracing
provider/settings pair computed from the workload-tracing relation is an
input (that relation is an external collaborator); the external authorizer
providers are computed from the ingress-config relations.  The body indexes
`parsed_config["platform"]`, a key `CharmConfig` does not produce, so the
lookup raises `KeyError`. -/
def IstioCoreCharm._get_istioctl (cfg : CharmConfig) (modelName : String)
    (tracingProviders : List ConfigValue) (globalTracing : PyDict)
    (ingressRelations : List IngressRelation) : Except String Istioctl := do
  let setting_overrides : PyDict := []
  let external_providers := IstioCoreCharm._external_authorizer_providers ingressRelations
  let all_providers := tracingProviders ++ external_providers
  let setting_overrides :=
    pyUpdate setting_overrides (IstioCoreCharm._build_extension_providers_config all_providers)
  let setting_overrides := pyUpdate setting_overrides globalTracing
  let setting_overrides := pySet setting_overrides "meshConfig.accessLogFile" (.str "/dev/stdout")
  let platform ← pyIndex (IstioCoreCharm.parsed_config cfg) "platform"
  let setting_overrides :=
    if platform.truthy then pySet setting_overrides "values.global.platform" platform
    else setting_overrides
  let setting_overrides :=
    pySet setting_overrides
      "values.sidecarInjectorWebhook.injectedAnnotations.traffic\\.sidecar\\.istio\\.io/excludeOutboundIPRanges"
      (.str "0.0.0.0/0")
  let ambient ← pyIndex (IstioCoreCharm.parsed_config cfg) "ambient"
  let setting_overrides :=
    if ambient.truthy then pySet setting_overrides "values.profile" (.str "ambient")
    else setting_overrides
  let autoAllow ← pyIndex (IstioCoreCharm.parsed_config cfg) "auto-allow-waypoint-policy"
  let setting_overrides :=
    if autoAllow.truthy then
      pySet setting_overrides "values.pilot.env.PILOT_AUTO_ALLOW_WAYPOINT_POLICY" (.str "true")
    else setting_overrides
  Except.ok ⟨"./istioctl", modelName, "empty", setting_overrides⟩

/-- An AuthorizationPolicy resource as built by
`_build_authorization_policies`. -/
structure AuthorizationPolicy where
  name : String
  policyNamespace : String
  spec : ConfigValue
deriving Repr

/-- `IstioCoreCharm._build_authorization_policies` (charm.py lines 515-546):
guarded by `self.parsed_config["global-allow-nothing-policy"]` — a key
`CharmConfig` does not produce, so the lookup raises `KeyError`. -/
def IstioCoreCharm._build_authorization_policies (cfg : CharmConfig)
    (appName modelName : String) : Except String (List AuthorizationPolicy) := do
  let globalAllowNothing ← pyIndex (IstioCoreCharm.parsed_config cfg) "global-allow-nothing-policy"
  if globalAllowNothing.truthy then
    Except.ok
      [⟨appName ++ "-" ++ modelName ++ "-policy-global-allow-nothing-l4", modelName, .dict []⟩,
       ⟨appName ++ "-" ++ modelName ++ "-policy-global-allow-nothing-waypoints", modelName,
        .dict
          [("targetRefs", .list
              [.dict
                 [("kind", .str "GatewayClass"),
                  ("group", .str "gateway.networking.k8s.io"),
                  ("name", .str "istio-waypoint")]])]⟩]
  else Except.ok []

/-! ## The reconcile loop as an effect trace -/

/-- `CONTROL_PLANE_LABEL` (charm.py line 60). -/
def CONTROL_PLANE_LABEL : String := "control-plane"

/-- `ISTIO_CRDS_LABEL` (charm.py line 77). -/
def ISTIO_CRDS_LABEL : String := "istio-crds"

/-- `GATEWAY_API_CRDS_LABEL` (charm.py line 80). -/
def GATEWAY_API_CRDS_LABEL : String := "gateway-apis-crds"

/-- `AUTHORIZATION_POLICY_LABEL` (charm.py line 90). -/
def AUTHORIZATION_POLICY_LABEL : String := "istio-authorization-policy"

/-- One externally observable side effect of a reconcile invocation: a
relation-databag write, a label-scoped Kubernetes resource reconciliation,
or a Pebble service replan. -/
inductive Effect where
  | writeRelationData (relationName appName : String) (data : Databag)
  | applyResources (scope : String)
  | replanPebbleService (serviceName : String)
deriving Repr, DecidableEq

/-- The relation state a reconcile invocation reads: the
istio-ingress-config relation instances, the istio-metadata relation
instances (by remote application name), and the model name. -/
structure CharmInputs where
  ingressRelations : List IngressRelation
  metadataRelationApps : List String
  modelName : String
deriving Repr, DecidableEq

/-- `IstioCoreCharm._publish_ext_authz_provider_names` (charm.py lines
319-328): for every ready relation, publish
`unique_name = f"ext_authz-{relation.app.name}"` into this charm's databag
on that relation (via
`IngressConfigRequirer.publish_ext_authz_provider_name`). -/
def IstioCoreCharm._publish_ext_authz_provider_names
    (relations : List IngressRelation) : List Effect :=
  relations.filterMap (fun rel =>
    if IngressConfigRequirer.is_ready rel.remoteData then
      Option.some (.writeRelationData "istio-ingress-config" rel.appName
        [("ext_authz_provider_name", "ext_authz-" ++ rel.appName)])
    else Option.none)

/-- `IstioCoreCharm._publish_istio_metadata` (charm.py lines 330-332):
publish `{"root_namespace": model.name}` to every istio-metadata
relation. -/
def IstioCoreCharm._publish_istio_metadata (inputs : CharmInputs) : List Effect :=
  inputs.metadataRelationApps.map (fun app =>
    .writeRelationData "istio-metadata" app [("root_namespace", inputs.modelName)])

/-- `IstioCoreCharm._reconcile` (charm.py lines 186-201) as its trace of
side effects: a non-leader returns immediately with none; the leader
publishes relation data first (ext-authz provider names, then istio
metadata), then reconciles the four resource scopes, then replans the
metrics-proxy Pebble service. -/
def IstioCoreCharm._reconcile (isLeader : Bool) (inputs : CharmInputs) : List Effect :=
  if !isLeader then []
  else
    IstioCoreCharm._publish_ext_authz_provider_names inputs.ingressRelations
      ++ IstioCoreCharm._publish_istio_metadata inputs
      ++ [.applyResources GATEWAY_API_CRDS_LABEL, .applyResources ISTIO_CRDS_LABEL,
          .applyResources CONTROL_PLANE_LABEL, .applyResources AUTHORIZATION_POLICY_LABEL]
      ++ [.replanPebbleService "metrics-proxy"]


/-! ## Dict lemmas -/

theorem pyGet?_cons (p : String × α) (d : List (String × α)) (k : String) :
    pyGet? (p :: d) k = if p.1 = k then Option.some p.2 else pyGet? d k := by
  by_cases h : p.1 = k <;> simp [pyGet?, List.find?_cons, h]

theorem pyGet?_append (d e : List (String × α)) (k : String) :
    pyGet? (d ++ e) k = ((pyGet? d k).or (pyGet? e k)) := by
  induction d with
  | nil => simp [pyGet?]
  | cons p rest ih =>
      by_cases h : p.1 = k <;> simp [pyGet?_cons, h, ih]

theorem pyGet?_eq_none_of_fresh (d : List (String × α)) (k : String)
    (h : ∀ p ∈ d, p.1 ≠ k) : pyGet? d k = Option.none := by
  induction d with
  | nil => rfl
  | cons p rest ih =>
      rw [pyGet?_cons, if_neg (h p (by simp))]
      exact ih (fun q hq => h q (by simp [hq]))

theorem pySet_of_fresh (d : List (String × α)) (k : String) (v : α)
    (h : ∀ p ∈ d, p.1 ≠ k) : pySet d k v = d ++ [(k, v)] := by
  have hany : d.any (fun p => p.1 == k) = false := by
    simp only [List.any_eq_false]
    intro p hp
    simpa using h p hp
  simp [pySet, hany]

theorem pySet_map_eq (d : List (String × α)) (k : String) (v : α)
    (hany : d.any (fun p => p.1 == k) = true) :
    pySet d k v = d.map (fun p => if p.1 == k then (k, v) else p) := by
  simp [pySet, hany]

theorem pyGet?_map_set_self (d : List (String × α)) (k : String) (v : α)
    (hany : d.any (fun p => p.1 == k) = true) :
    pyGet? (d.map (fun p => if p.1 == k then (k, v) else p)) k = Option.some v := by
  induction d with
  | nil => simp at hany
  | cons p rest ih =>
      by_cases hp : p.1 = k
      · simp [pyGet?_cons, hp]
      · have hp2 : (p.1 == k) = false := by simpa using hp
        have hrest : rest.any (fun q => q.1 == k) = true := by
          simpa [List.any_cons, hp2] using hany
        have := ih hrest
        simpa [pyGet?_cons, hp, hp2] using this

theorem pyGet?_pySet_self (d : List (String × α)) (k : String) (v : α) :
    pyGet? (pySet d k v) k = Option.some v := by
  by_cases hany : d.any (fun p => p.1 == k)
  · rw [pySet_map_eq d k v hany]
    exact pyGet?_map_set_self d k v hany
  · have hfresh : ∀ p ∈ d, p.1 ≠ k := by
      intro p hp hcon
      exact hany (List.any_eq_true.mpr ⟨p, hp, by simpa using hcon⟩)
    rw [pySet_of_fresh d k v hfresh, pyGet?_append,
      pyGet?_eq_none_of_fresh d k hfresh]
    simp [pyGet?]

theorem pyGet?_map_set_ne (d : List (String × α)) (k k2 : String) (v : α) (h : k2 ≠ k) :
    pyGet? (d.map (fun p => if p.1 == k then (k, v) else p)) k2 = pyGet? d k2 := by
  induction d with
  | nil => simp [pyGet?]
  | cons p rest ih =>
      by_cases hp : p.1 = k
      · have hkk2 : ¬ (k = k2) := fun hcon => h hcon.symm
        have hp2 : ¬ (p.1 = k2) := by
          rw [hp]; exact hkk2
        simpa [pyGet?_cons, hp, hkk2, hp2] using ih
      · by_cases hp2 : p.1 = k2
        · simp [pyGet?_cons, hp, hp2, h]
        · simpa [pyGet?_cons, hp, hp2] using ih

theorem pyGet?_pySet_ne (d : List (String × α)) (k k2 : String) (v : α) (h : k2 ≠ k) :
    pyGet? (pySet d k v) k2 = pyGet? d k2 := by
  by_cases hany : d.any (fun p => p.1 == k)
  · rw [pySet_map_eq d k v hany]
    exact pyGet?_map_set_ne d k k2 v h
  · have hfresh : ∀ p ∈ d, p.1 ≠ k := by
      intro p hp hcon
      exact hany (List.any_eq_true.mpr ⟨p, hp, by simpa using hcon⟩)
    rw [pySet_of_fresh d k v hfresh, pyGet?_append]
    have hsingle : pyGet? [(k, v)] k2 = Option.none := by
      rw [pyGet?_cons, if_neg (fun hcon => h hcon.symm)]
      rfl
    rw [hsingle]
    cases pyGet? d k2 <;> simp

theorem pySet_ne_nil (d : List (String × α)) (k : String) (v : α) :
    pySet d k v ≠ [] := by
  unfold pySet
  by_cases hany : d.any (fun p => p.1 == k)
  · simp only [hany, if_true]
    intro hcon
    have hlen : d = [] := by simpa using congrArg List.length hcon
    subst hlen
    simp at hany
  · simp [hany]

theorem pyUpdate_cons (d : List (String × α)) (kv : String × α) (e : List (String × α)) :
    pyUpdate d (kv :: e) = pyUpdate (pySet d kv.1 kv.2) e := by
  simp [pyUpdate]

theorem pyUpdate_eq_append (d e : List (String × α))
    (hdisj : ∀ p ∈ e, ∀ q ∈ d, q.1 ≠ p.1)
    (hnodup : (pyKeys e).Nodup) :
    pyUpdate d e = d ++ e := by
  induction e generalizing d with
  | nil => simp [pyUpdate]
  | cons kv rest ih =>
      rw [pyUpdate_cons]
      have hset : pySet d kv.1 kv.2 = d ++ [kv] := by
        have := pySet_of_fresh d kv.1 kv.2 (fun q hq => hdisj kv (by simp) q hq)
        simpa using this
      rw [hset]
      have hcons : (kv.1 :: rest.map Prod.fst).Nodup := by simpa [pyKeys] using hnodup
      have hnodup2 : (pyKeys rest).Nodup := by
        simpa [pyKeys] using hcons.of_cons
      have hhead : kv.1 ∉ rest.map Prod.fst := (List.nodup_cons.mp hcons).1
      have hdisj2 : ∀ p ∈ rest, ∀ q ∈ d ++ [kv], q.1 ≠ p.1 := by
        intro p hp q hq
        rcases List.mem_append.mp hq with hq | hq
        · exact hdisj p (by simp [hp]) q hq
        · have hq2 : q = kv := by simpa using hq
          subst hq2
          intro hcon
          exact hhead (hcon ▸ List.mem_map_of_mem Prod.fst hp)
      rw [ih (d ++ [kv]) hdisj2 hnodup2, List.append_assoc]
      simp

/-! ## Flattening lemmas -/

mutual

theorem flattenLeaves_length : ∀ (v : ConfigValue) (pfx : String),
    (flattenLeaves v pfx).length = leafCount v
  | .str _, _ => rfl
  | .int _, _ => rfl
  | .bool _, _ => rfl
  | .none, _ => rfl
  | .dict entries, pfx => by
      simpa [flattenLeaves, leafCount] using flattenLeavesDict_length entries pfx
  | .list items, pfx => by
      simpa [flattenLeaves, leafCount] using flattenLeavesList_length items pfx 0

theorem flattenLeavesDict_length : ∀ (entries : List (String × ConfigValue)) (pfx : String),
    (flattenLeavesDict entries pfx).length = leafCountDict entries
  | [], _ => rfl
  | (k, v) :: rest, pfx => by
      simp [flattenLeavesDict, leafCountDict, flattenLeaves_length v (childKey pfx k),
        flattenLeavesDict_length rest pfx]

theorem flattenLeavesList_length : ∀ (items : List ConfigValue) (pfx : String) (i : Nat),
    (flattenLeavesList items pfx i).length = leafCountList items
  | [], _, _ => rfl
  | v :: rest, pfx, i => by
      simp [flattenLeavesList, leafCountList, flattenLeaves_length v (indexKey pfx i),
        flattenLeavesList_length rest pfx (i + 1)]

end

mutual

theorem flattenConfig_eq_leaves : ∀ (v : ConfigValue) (pfx : String),
    (pyKeys (flattenLeaves v pfx)).Nodup → flatten_config v pfx = flattenLeaves v pfx
  | .str _, _, _ => rfl
  | .int _, _, _ => rfl
  | .bool _, _, _ => rfl
  | .none, _, _ => rfl
  | .dict entries, pfx, h => by
      have := flattenConfigDict_eq_leaves entries pfx []
        (by simpa [flattenLeaves] using h)
      simpa [flatten_config, flattenLeaves] using this
  | .list items, pfx, h => by
      have := flattenConfigList_eq_leaves items pfx 0 []
        (by simpa [flattenLeaves] using h)
      simpa [flatten_config, flattenLeaves] using this

theorem flattenConfigDict_eq_leaves :
    ∀ (entries : List (String × ConfigValue)) (pfx : String) (acc : PyDict),
    (pyKeys (acc ++ flattenLeavesDict entries pfx)).Nodup →
    flattenConfigDict entries pfx acc = acc ++ flattenLeavesDict entries pfx
  | [], _, acc, _ => by simp [flattenConfigDict, flattenLeavesDict]
  | (k, v) :: rest, pfx, acc, h => by
      have hsplit : pyKeys (acc ++ flattenLeavesDict ((k, v) :: rest) pfx)
          = pyKeys acc ++ (pyKeys (flattenLeaves v (childKey pfx k))
              ++ pyKeys (flattenLeavesDict rest pfx)) := by
        simp [pyKeys, flattenLeavesDict]
      rw [hsplit] at h
      have hAB : (pyKeys acc ++ pyKeys (flattenLeaves v (childKey pfx k))).Nodup := by
        have hsub : (pyKeys acc ++ pyKeys (flattenLeaves v (childKey pfx k))).Sublist
            (pyKeys acc ++ (pyKeys (flattenLeaves v (childKey pfx k))
              ++ pyKeys (flattenLeavesDict rest pfx))) := by
          apply List.Sublist.append_left
          exact List.sublist_append_left _ _
        exact h.sublist hsub
      have hB : (pyKeys (flattenLeaves v (childKey pfx k))).Nodup := by
        have := (List.nodup_append.mp hAB).2.1
        exact this
      have hchild := flattenConfig_eq_leaves v (childKey pfx k) hB
      have hdisj : ∀ p ∈ flattenLeaves v (childKey pfx k), ∀ q ∈ acc, q.1 ≠ p.1 := by
        intro p hp q hq hcon
        have hdis := (List.nodup_append.mp hAB).2.2
        exact hdis (hcon ▸ List.mem_map_of_mem Prod.fst hq) (List.mem_map_of_mem Prod.fst hp)
      have hupd : pyUpdate acc (flattenLeaves v (childKey pfx k))
          = acc ++ flattenLeaves v (childKey pfx k) :=
        pyUpdate_eq_append _ _ hdisj hB
      have hrest : (pyKeys ((acc ++ flattenLeaves v (childKey pfx k))
          ++ flattenLeavesDict rest pfx)).Nodup := by
        simpa [pyKeys, List.append_assoc] using h
      have hih := flattenConfigDict_eq_leaves rest pfx
        (acc ++ flattenLeaves v (childKey pfx k)) hrest
      calc flattenConfigDict ((k, v) :: rest) pfx acc
      _ = flattenConfigDict rest pfx (pyUpdate acc (flatten_config v (childKey pfx k))) := by
            rw [flattenConfigDict]
      _ = flattenConfigDict rest pfx (acc ++ flattenLeaves v (childKey pfx k)) := by
            rw [hchild, hupd]
      _ = (acc ++ flattenLeaves v (childKey pfx k)) ++ flattenLeavesDict rest pfx := hih
      _ = acc ++ flattenLeavesDict ((k, v) :: rest) pfx := by
            rw [flattenLeavesDict, List.append_assoc]

theorem flattenConfigList_eq_leaves :
    ∀ (items : List ConfigValue) (pfx : String) (i : Nat) (acc : PyDict),
    (pyKeys (acc ++ flattenLeavesList items pfx i)).Nodup →
    flattenConfigList items pfx i acc = acc ++ flattenLeavesList items pfx i
  | [], _, _, acc, _ => by simp [flattenConfigList, flattenLeavesList]
  | v :: rest, pfx, i, acc, h => by
      have hsplit : pyKeys (acc ++ flattenLeavesList (v :: rest) pfx i)
          = pyKeys acc ++ (pyKeys (flattenLeaves v (indexKey pfx i))
              ++ pyKeys (flattenLeavesList rest pfx (i + 1))) := by
        simp [pyKeys, flattenLeavesList]
      rw [hsplit] at h
      have hAB : (pyKeys acc ++ pyKeys (flattenLeaves v (indexKey pfx i))).Nodup := by
        have hsub : (pyKeys acc ++ pyKeys (flattenLeaves v (indexKey pfx i))).Sublist
            (pyKeys acc ++ (pyKeys (flattenLeaves v (indexKey pfx i))
              ++ pyKeys (flattenLeavesList rest pfx (i + 1)))) := by
          apply List.Sublist.append_left
          exact List.sublist_append_left _ _
        exact h.sublist hsub
      have hB : (pyKeys (flattenLeaves v (indexKey pfx i))).Nodup :=
        (List.nodup_append.mp hAB).2.1
      have hchild := flattenConfig_eq_leaves v (indexKey pfx i) hB
      have hdisj : ∀ p ∈ flattenLeaves v (indexKey pfx i), ∀ q ∈ acc, q.1 ≠ p.1 := by
        intro p hp q hq hcon
        have hdis := (List.nodup_append.mp hAB).2.2
        exact hdis (hcon ▸ List.mem_map_of_mem Prod.fst hq) (List.mem_map_of_mem Prod.fst hp)
      have hupd : pyUpdate acc (flattenLeaves v (indexKey pfx i))
          = acc ++ flattenLeaves v (indexKey pfx i) :=
        pyUpdate_eq_append _ _ hdisj hB
      have hrest : (pyKeys ((acc ++ flattenLeaves v (indexKey pfx i))
          ++ flattenLeavesList rest pfx (i + 1))).Nodup := by
        simpa [pyKeys, List.append_assoc] using h
      have hih := flattenConfigList_eq_leaves rest pfx (i + 1)
        (acc ++ flattenLeaves v (indexKey pfx i)) hrest
      calc flattenConfigList (v :: rest) pfx i acc
      _ = flattenConfigList rest pfx (i + 1) (pyUpdate acc (flatten_config v (indexKey pfx i))) := by
            rw [flattenConfigList]
      _ = flattenConfigList rest pfx (i + 1) (acc ++ flattenLeaves v (indexKey pfx i)) := by
            rw [hchild, hupd]
      _ = (acc ++ flattenLeaves v (indexKey pfx i)) ++ flattenLeavesList rest pfx (i + 1) := hih
      _ = acc ++ flattenLeavesList (v :: rest) pfx i := by
            rw [flattenLeavesList, List.append_assoc]

end

/-! ## Claim theorems -/

/-- C5: `flatten_config` is a pure, total, deterministic function (it is a
Lean function); mapping entries recurse with `prefix + "." + key` (bare key
on empty prefix), sequence entries with `prefix + "[i]"`, other values
become one leaf entry at the current prefix; the two concrete examples of
the claim hold.  The claim's "every leaf scalar appears exactly once in the
output" holds in the amended form: whenever the generated key paths are
pairwise distinct, the output is exactly the leaf-entry list (one entry per
leaf scalar, `flattenLeaves`, whose length is the leaf count); colliding
key paths instead overwrite (see the counterexample). -/
theorem c5_flatten_config_semantics :
    flatten_config
        (.dict [("a", .dict [("b", .int 1), ("c", .dict [("d", .str "x")])]), ("e", .int 2)])
        "prefix"
      = [("prefix.a.b", .int 1), ("prefix.a.c.d", .str "x"), ("prefix.e", .int 2)]
  ∧ flatten_config (.dict [("b", .list [.str "1", .str "2", .str "3"])]) ""
      = [("b[0]", .str "1"), ("b[1]", .str "2"), ("b[2]", .str "3")]
  ∧ (∀ (v : ConfigValue) (pfx : String),
      (pyKeys (flattenLeaves v pfx)).Nodup →
      flatten_config v pfx = flattenLeaves v pfx)
  ∧ (∀ (v : ConfigValue) (pfx : String), (flattenLeaves v pfx).length = leafCount v) :=
  ⟨rfl, rfl, flattenConfig_eq_leaves, flattenLeaves_length⟩

/-- C5 witness: the general collision-free statement applied to the claim's
own first example structure. -/
theorem c5_flatten_config_semantics_witness :
    (pyKeys (flattenLeaves
        (.dict [("a", .dict [("b", .int 1), ("c", .dict [("d", .str "x")])]), ("e", .int 2)])
        "prefix")).Nodup
  ∧ flatten_config
        (.dict [("a", .dict [("b", .int 1), ("c", .dict [("d", .str "x")])]), ("e", .int 2)])
        "prefix"
      = flattenLeaves
          (.dict [("a", .dict [("b", .int 1), ("c", .dict [("d", .str "x")])]), ("e", .int 2)])
          "prefix" :=
  ⟨by decide,
   c5_flatten_config_semantics.2.2.1
     (.dict [("a", .dict [("b", .int 1), ("c", .dict [("d", .str "x")])]), ("e", .int 2)])
     "prefix" (by decide)⟩

/-- C5 counterexample: when two leaves flatten to the same key path, the
later `dict.update` overwrites the earlier entry, so a leaf scalar can be
missing from the output — `{"a": {"b": 1}, "a.b": 2}` has two leaf scalars
but flattens to the single entry `{"a.b": 2}`, refuting "every leaf scalar
appears exactly once in the output". -/
theorem c5_counterexample_key_collision :
    flatten_config (.dict [("a", .dict [("b", .int 1)]), ("a.b", .int 2)]) ""
      = [("a.b", .int 2)]
  ∧ (flatten_config (.dict [("a", .dict [("b", .int 1)]), ("a.b", .int 2)]) "").length = 1
  ∧ leafCount (.dict [("a", .dict [("b", .int 1)]), ("a.b", .int 2)]) = 2 :=
  ⟨rfl, rfl, rfl⟩

/-- C1: single-remote relation channels.  With zero relation instances both
`Receiver.get_data` (any schema) and `IstioMetadataRequirer.get_data`
return `None`; with one instance whose remote databag is empty they return
`None`; with more than one instance they raise the distinct topology
`ValueError` (never silently picking one); and
`get_data_from_all_relations` returns one entry per relation instance in
relation order — `None` exactly for the instances with no data — and never
raises for multiplicity (for the istio-info schema it can never produce a
`multipleRelations` error at all). -/
theorem c1_single_remote_channel (α : Type) (parse : Databag → Except ReadError α) :
    (Receiver.get_data parse [] = Except.ok Option.none
      ∧ IstioMetadataRequirer.get_data [] = Except.ok Option.none)
  ∧ (Receiver.get_data parse [[]] = Except.ok Option.none
      ∧ IstioMetadataRequirer.get_data [[]] = Except.ok Option.none)
  ∧ (∀ relations : List Databag, 2 ≤ relations.length →
      Receiver.get_data parse relations
          = Except.error (.multipleRelations multipleRelationsMsg)
        ∧ IstioMetadataRequirer.get_data relations
          = Except.error (.multipleRelations multipleRelationsMsg))
  ∧ (∀ relations : List Databag,
      (∀ bag ∈ relations, bag = [] ∨ ∃ v, parse bag = Except.ok v) →
      Receiver.get_data_from_all_relations parse relations
        = Except.ok (relations.map (fun bag =>
            if bag.isEmpty then Option.none else (parse bag).toOption)))
  ∧ (∀ (relations : List Databag) (m : String),
      Receiver.get_data_from_all_relations IstioInfoAppData.validate relations
        ≠ Except.error (.multipleRelations m)) := by
  refine ⟨⟨rfl, rfl⟩, ⟨rfl, rfl⟩, ?_, ?_, ?_⟩
  · intro relations h
    match relations with
    | [] => simp at h
    | [_] => simp at h
    | _ :: _ :: _ => exact ⟨rfl, rfl⟩
  · intro relations h
    induction relations with
    | nil => rfl
    | cons bag rest ih =>
        have hrest := ih (fun b hb => h b (by simp [hb]))
        by_cases hbag : bag.isEmpty
        · have hbag2 : bag = [] := List.isEmpty_iff.mp hbag
          subst hbag2
          simp [Receiver.get_data_from_all_relations, hrest, Except.map]
        · have hne : bag ≠ [] := fun hc => hbag (by simp [hc])
          rcases h bag (by simp) with hempty | ⟨v, hv⟩
          · exact absurd hempty hne
          · simp [Receiver.get_data_from_all_relations, hbag, hv, hrest, Except.map,
              Except.toOption, hne]
  · intro relations m
    induction relations with
    | nil => simp [Receiver.get_data_from_all_relations]
    | cons bag rest ih =>
        intro hcon
        by_cases hbag : bag.isEmpty
        · rw [Receiver.get_data_from_all_relations, if_pos hbag] at hcon
          cases hX : Receiver.get_data_from_all_relations IstioInfoAppData.validate rest with
          | ok l => rw [hX] at hcon; simp [Except.map] at hcon
          | error e =>
              rw [hX] at hcon
              simp only [Except.map] at hcon
              cases hcon
              exact ih hX
        · rw [Receiver.get_data_from_all_relations, if_neg hbag] at hcon
          cases hget : pyGet? bag "root_namespace" with
          | some v =>
              rw [show IstioInfoAppData.validate bag = Except.ok ⟨v⟩ by
                    simp [IstioInfoAppData.validate, hget]] at hcon
              cases hX : Receiver.get_data_from_all_relations IstioInfoAppData.validate rest with
              | ok l => rw [hX] at hcon; simp [Except.map] at hcon
              | error e =>
                  rw [hX] at hcon
                  simp only [Except.map] at hcon
                  cases hcon
                  exact ih hX
          | none =>
              rw [show IstioInfoAppData.validate bag
                    = Except.error (.validation
                        "1 validation error for IstioInfoAppData: root_namespace Field required") by
                    simp [IstioInfoAppData.validate, hget]] at hcon
              simp at hcon

/-- C1 witness: the multiplicity branch at two populated istio-info
relations, and the all-relations read at one empty plus one populated
relation. -/
theorem c1_single_remote_channel_witness :
    (2 ≤ ([[("root_namespace", "a")], [("root_namespace", "b")]] : List Databag).length
      ∧ Receiver.get_data IstioInfoAppData.validate
            [[("root_namespace", "a")], [("root_namespace", "b")]]
          = Except.error (.multipleRelations multipleRelationsMsg))
  ∧ Receiver.get_data_from_all_relations IstioInfoAppData.validate
        [[], [("root_namespace", "x")]]
      = Except.ok [Option.none, Option.some ⟨"x"⟩] :=
  ⟨⟨by decide,
    ((c1_single_remote_channel IstioInfoAppData IstioInfoAppData.validate).2.2.1
        [[("root_namespace", "a")], [("root_namespace", "b")]] (by decide)).1⟩,
   by
     have h := (c1_single_remote_channel IstioInfoAppData IstioInfoAppData.validate).2.2.2.1
       [[], [("root_namespace", "x")]]
       (by
         intro bag hbag
         rcases List.mem_cons.mp hbag with h1 | h2
         · exact Or.inl h1
         · have : bag = [("root_namespace", "x")] := by simpa using h2
           subst this
           exact Or.inr ⟨⟨"x"⟩, rfl⟩)
     simpa using h⟩

/-- C2 counterexample: a non-empty remote databag that fails schema
validation is *not* turned into a logged, distinguishable non-exception
outcome by every reader.  `IstioMetadataRequirer.get_data` lets the
pydantic `ValidationError` escape the read (nothing in it catches or logs
the failure), and `IngressConfigRequirer.get_provider_ext_authz_info`
returns `None` — the very value an empty databag yields, so the failure is
not distinguishable from "no data". -/
theorem c2_counterexample_validation_escape :
    IstioMetadataRequirer.get_data [[("some_key", "x")]]
      = Except.error (.validation
          "1 validation error for IstioMetadataAppData: root_namespace Field required")
  ∧ IngressConfigRequirer.get_provider_ext_authz_info
      [("ext_authz_service_name", "svc"), ("ext_authz_port", "not-a-number")] = Option.none
  ∧ IngressConfigRequirer.get_provider_ext_authz_info [] = Option.none :=
  ⟨rfl, rfl, rfl⟩

/-- C2 (amended): what the readers actually do with a non-empty databag
that fails schema validation.  `IngressConfigRequirer.get_provider_ext_authz_info`
catches the validation error, logs it and returns `None` — indistinguishable
from the `None` returned for an empty databag; `IstioMetadataRequirer.get_data`
and `Receiver.get_data` let the validation error propagate out of the read
as an exception (a distinguishable outcome, but an uncaught one). -/
theorem c2_validation_failure_semantics :
    (∀ (bag : Databag) (e : ReadError),
        ProviderIngressConfigData.validate bag = Except.error e →
        IngressConfigRequirer.get_provider_ext_authz_info bag = Option.none)
  ∧ IngressConfigRequirer.get_provider_ext_authz_info ([] : Databag) = Option.none
  ∧ (∀ (bag : Databag) (e : ReadError), bag.isEmpty = false →
        IstioMetadataAppData.validate bag = Except.error e →
        IstioMetadataRequirer.get_data [bag] = Except.error e)
  ∧ (∀ (α : Type) (parse : Databag → Except ReadError α) (bag : Databag) (e : ReadError),
        bag.isEmpty = false → parse bag = Except.error e →
        Receiver.get_data parse [bag] = Except.error e) := by
  refine ⟨?_, rfl, ?_, ?_⟩
  · intro bag e he
    unfold IngressConfigRequirer.get_provider_ext_authz_info
    by_cases hbag : bag.isEmpty
    · simp [hbag]
    · simp [hbag, he]
  · intro bag e hbag he
    unfold IstioMetadataRequirer.get_data
    simp [hbag, he, Except.map]
  · intro α parse bag e hbag he
    unfold Receiver.get_data
    simp [hbag, he, Except.map]

/-- C2 amended witness: the amended semantics applied at concrete invalid
databags (a non-integer port; a databag missing `root_namespace`). -/
theorem c2_validation_failure_semantics_witness :
    IngressConfigRequirer.get_provider_ext_authz_info
        [("ext_authz_service_name", "svc"), ("ext_authz_port", "x")] = Option.none
  ∧ IstioMetadataRequirer.get_data [[("other", "y")]]
      = Except.error (.validation
          "1 validation error for IstioMetadataAppData: root_namespace Field required") :=
  ⟨c2_validation_failure_semantics.1
      [("ext_authz_service_name", "svc"), ("ext_authz_port", "x")]
      (.validation ("ext_authz_port must be convertible to an integer, got " ++ "x")) rfl,
   c2_validation_failure_semantics.2.2.1 [("other", "y")]
      (.validation "1 validation error for IstioMetadataAppData: root_namespace Field required")
      rfl rfl⟩

/-- C3: for every configuration accepted by `CharmConfig`, `parsed_config`
holds exactly the four aliased keys and no others; consequently
`_get_istioctl` — which indexes `parsed_config["platform"]` — and
`_build_authorization_policies` — which indexes
`parsed_config["global-allow-nothing-policy"]` — raise `KeyError` for every
possible charm configuration. -/
theorem c3_parsed_config_keyerror :
    (∀ cfg : CharmConfig,
        pyKeys (IstioCoreCharm.parsed_config cfg)
            = ["ambient", "cni-bin-dir", "cni-conf-dir", "auto-allow-waypoint-policy"]
          ∧ pyGet? (IstioCoreCharm.parsed_config cfg) "platform" = Option.none
          ∧ pyGet? (IstioCoreCharm.parsed_config cfg) "global-allow-nothing-policy"
              = Option.none)
  ∧ (∀ (cfg : CharmConfig) (modelName : String) (tracingProviders : List ConfigValue)
        (globalTracing : PyDict) (ingressRelations : List IngressRelation),
        IstioCoreCharm._get_istioctl cfg modelName tracingProviders globalTracing
            ingressRelations
          = Except.error "KeyError: \x27platform\x27")
  ∧ (∀ (cfg : CharmConfig) (appName modelName : String),
        IstioCoreCharm._build_authorization_policies cfg appName modelName
          = Except.error "KeyError: \x27global-allow-nothing-policy\x27") :=
  ⟨fun _ => ⟨rfl, rfl, rfl⟩, fun _ _ _ _ _ => rfl, fun _ _ _ => rfl⟩

/-- C4: the istio_info `Sender`.  `is_ready()` is true iff, for every
relation instance, the stored local application databag loads under the
schema and is field-for-field equal to the data the sender should publish;
after `send_data` (run by the leader) `is_ready()` is true, and a repeated
`send_data` with identical data is a no-op on every databag.  The
`hround` hypothesis is the cosl dump/load round trip, proved concretely for
`IstioInfoAppData` in the witness. -/
theorem c4_sender_convergence (α : Type) [DecidableEq α]
    (dump : α → Databag) (load : Databag → Except ReadError α)
    (hround : ∀ d, load (dump d) = Except.ok d) :
    (∀ (data : α) (st : SenderState),
        Sender.is_ready load data st = true ↔ ∀ bag ∈ st.relations, load bag = Except.ok data)
  ∧ (∀ (data : α) (st : SenderState),
        Sender.is_ready load data (Sender.send_data dump data st) = true)
  ∧ (∀ (data : α) (st : SenderState),
        Sender.send_data dump data (Sender.send_data dump data st)
          = Sender.send_data dump data st) := by
  refine ⟨?_, ?_, ?_⟩
  · intro data st
    unfold Sender.is_ready Sender._is_relation_data_up_to_date
    rw [List.all_eq_true]
    constructor
    · intro h bag hbag
      have hb := h bag hbag
      cases hl : load bag with
      | ok stored =>
          rw [hl] at hb
          simp only [beq_iff_eq] at hb
          rw [hb]
      | error e =>
          rw [hl] at hb
          simp at hb
    · intro h bag hbag
      rw [h bag hbag]
      simp
  · intro data st
    unfold Sender.is_ready Sender._is_relation_data_up_to_date Sender.send_data
    rw [List.all_eq_true]
    intro bag hbag
    simp only [List.mem_map] at hbag
    rcases hbag with ⟨_, _, hbag⟩
    rw [← hbag, hround data]
    simp
  · intro data st
    unfold Sender.send_data
    simp

/-- C4 witness: the dump/load round trip holds for `IstioInfoAppData`, and
after `send_data` over one stale and one empty databag the sender reports
ready. -/
theorem c4_sender_convergence_witness :
    Sender.is_ready IstioInfoAppData.load ⟨"istio-system"⟩
      (Sender.send_data IstioInfoAppData.dump ⟨"istio-system"⟩
        ⟨[[], [("root_namespace", "stale")]]⟩) = true :=
  (c4_sender_convergence IstioInfoAppData IstioInfoAppData.dump IstioInfoAppData.load
      (fun _ => rfl)).2.1 ⟨"istio-system"⟩ ⟨[[], [("root_namespace", "stale")]]⟩

/-! ## Manifest override lemmas -/

theorem applyFirstOverride_eq_find (doc : PyDict) (ovs : List OverrideResource) :
    applyFirstOverride doc ovs
      = match ovs.find? (fun ov => _is_same_resource doc ov) with
        | Option.some ov => _deep_merge_dict doc ov.toDict
        | Option.none => doc := by
  induction ovs with
  | nil => rfl
  | cons ov rest ih =>
      by_cases h : _is_same_resource doc ov
      · simp [applyFirstOverride, h, List.find?_cons]
      · simp only [applyFirstOverride, h, if_false, Bool.false_eq_true]
        rw [List.find?_cons_of_neg _ (by simpa using h)]
        exact ih

theorem deepMergeStep_lookup_ne (base : PyDict) (k2 k : String) (v : ConfigValue)
    (h : k ≠ k2) :
    pyGet? (deepMergeStep base k2 v) k = pyGet? base k := by
  cases v with
  | dict ud =>
      cases hb : pyGet? base k2 with
      | some bv => cases bv <;> simp [deepMergeStep, hb, pyGet?_pySet_ne _ _ _ _ h]
      | none => simp [deepMergeStep, hb, pyGet?_pySet_ne _ _ _ _ h]
  | str s => simp [deepMergeStep, pyGet?_pySet_ne _ _ _ _ h]
  | int n => simp [deepMergeStep, pyGet?_pySet_ne _ _ _ _ h]
  | bool b => simp [deepMergeStep, pyGet?_pySet_ne _ _ _ _ h]
  | none => simp [deepMergeStep, pyGet?_pySet_ne _ _ _ _ h]
  | list items => simp [deepMergeStep, pyGet?_pySet_ne _ _ _ _ h]

theorem deepMerge_lookup_fresh : ∀ (updates base : PyDict) (k : String),
    pyGet? updates k = Option.none →
    pyGet? (_deep_merge_dict base updates) k = pyGet? base k
  | [], base, k, _ => by simp [_deep_merge_dict]
  | (k2, v2) :: rest, base, k, h => by
      have hk2 : ¬ (k2 = k) := by
        intro hcon
        rw [pyGet?_cons, if_pos hcon] at h
        simp at h
      have hrest : pyGet? rest k = Option.none := by
        rw [pyGet?_cons, if_neg hk2] at h
        exact h
      rw [_deep_merge_dict,
        deepMerge_lookup_fresh rest (deepMergeStep base k2 v2) k hrest,
        deepMergeStep_lookup_ne base k2 k v2 (fun hcon => hk2 hcon.symm)]

theorem deepMerge_lookup_nested : ∀ (updates base : PyDict) (k : String) (bd ud : PyDict),
    (pyKeys updates).Nodup → pyGet? base k = Option.some (.dict bd) →
    pyGet? updates k = Option.some (.dict ud) →
    pyGet? (_deep_merge_dict base updates) k = Option.some (.dict (_deep_merge_dict bd ud))
  | [], _, k, _, _, _, _, hu => by simp [pyGet?] at hu
  | (k2, v2) :: rest, base, k, bd, ud, hnodup, hb, hu => by
      have hcons : (k2 :: rest.map Prod.fst).Nodup := by simpa [pyKeys] using hnodup
      by_cases hk : k2 = k
      · subst hk
        rw [pyGet?_cons, if_pos rfl] at hu
        have hv2 : v2 = .dict ud := by simpa using hu
        subst hv2
        have hstep : deepMergeStep base k2 (.dict ud)
            = pySet base k2 (.dict (_deep_merge_dict bd ud)) := by
          simp [deepMergeStep, hb]
        have hfresh : pyGet? rest k2 = Option.none := by
          apply pyGet?_eq_none_of_fresh
          intro p hp hcon
          exact (List.nodup_cons.mp hcons).1 (hcon ▸ List.mem_map_of_mem Prod.fst hp)
        rw [_deep_merge_dict, hstep,
          deepMerge_lookup_fresh rest _ k2 hfresh,
          pyGet?_pySet_self]
      · rw [pyGet?_cons, if_neg hk] at hu
        have hb2 : pyGet? (deepMergeStep base k2 v2) k = Option.some (.dict bd) := by
          rw [deepMergeStep_lookup_ne base k2 k v2 (fun hcon => hk hcon.symm)]
          exact hb
        rw [_deep_merge_dict]
        exact deepMerge_lookup_nested rest (deepMergeStep base k2 v2) k bd ud
          (by simpa [pyKeys] using (List.nodup_cons.mp hcons).2) hb2 hu

theorem deepMerge_lookup_replace : ∀ (updates base : PyDict) (k : String) (v : ConfigValue),
    (pyKeys updates).Nodup → pyGet? updates k = Option.some v →
    (∀ ud, v ≠ .dict ud) →
    pyGet? (_deep_merge_dict base updates) k = Option.some v
  | [], _, k, _, _, hu, _ => by simp [pyGet?] at hu
  | (k2, v2) :: rest, base, k, v, hnodup, hu, hnd => by
      have hcons : (k2 :: rest.map Prod.fst).Nodup := by simpa [pyKeys] using hnodup
      by_cases hk : k2 = k
      · subst hk
        rw [pyGet?_cons, if_pos rfl] at hu
        have hv2 : v2 = v := by simpa using hu
        subst hv2
        have hstep : deepMergeStep base k2 v2 = pySet base k2 v2 := by
          cases v2 with
          | dict ud => exact absurd rfl (hnd ud)
          | str s => rfl
          | int n => rfl
          | bool b => rfl
          | none => rfl
          | list items => rfl
        have hfresh : pyGet? rest k2 = Option.none := by
          apply pyGet?_eq_none_of_fresh
          intro p hp hcon
          exact (List.nodup_cons.mp hcons).1 (hcon ▸ List.mem_map_of_mem Prod.fst hp)
        rw [_deep_merge_dict, hstep,
          deepMerge_lookup_fresh rest _ k2 hfresh,
          pyGet?_pySet_self]
      · rw [pyGet?_cons, if_neg hk] at hu
        rw [_deep_merge_dict]
        exact deepMerge_lookup_replace rest (deepMergeStep base k2 v2) k v
          (by simpa [pyKeys] using (List.nodup_cons.mp hcons).2) hu hnd

/-- C6: `_apply_manifest_overrides` on the parsed multi-document stream:
each (non-empty) document is matched against the overrides by
(kind, metadata.namespace, metadata.name) and deep-merged in place with the
*first* matching override; documents with no matching override pass through
unchanged (the re-serialization of the resulting document list is the
external YAML codec).  In the deep merge, a key absent from the override is
untouched, nested mappings merge key-by-key (recursively), and a
non-mapping override value — sequence or scalar — replaces the base value
wholesale.  The claim's ConfigMap example: data `{a: 1}` merged with a
matching override's data `{b: 2}` yields `{a: 1, b: 2}`, while a
non-matching override leaves the document untouched. -/
theorem c6_manifest_override_merge :
    (∀ (docs : List (Option PyDict)) (overrides : List OverrideResource),
        _apply_manifest_overrides docs overrides
          = docs.map (Option.map (fun doc =>
              match overrides.find? (fun ov => _is_same_resource doc ov) with
              | Option.some ov => _deep_merge_dict doc ov.toDict
              | Option.none => doc)))
  ∧ (∀ (updates base : PyDict) (k : String),
        pyGet? updates k = Option.none →
        pyGet? (_deep_merge_dict base updates) k = pyGet? base k)
  ∧ (∀ (updates base : PyDict) (k : String) (bd ud : PyDict),
        (pyKeys updates).Nodup →
        pyGet? base k = Option.some (.dict bd) →
        pyGet? updates k = Option.some (.dict ud) →
        pyGet? (_deep_merge_dict base updates) k
          = Option.some (.dict (_deep_merge_dict bd ud)))
  ∧ (∀ (updates base : PyDict) (k : String) (v : ConfigValue),
        (pyKeys updates).Nodup → pyGet? updates k = Option.some v →
        (∀ ud, v ≠ .dict ud) →
        pyGet? (_deep_merge_dict base updates) k = Option.some v)
  ∧ (_apply_manifest_overrides
        [Option.some
          [("kind", .str "ConfigMap"),
           ("metadata", .dict [("name", .str "X"), ("namespace", .str "ns")]),
           ("data", .dict [("a", .int 1)])]]
        [⟨"ConfigMap", Option.some "X", Option.some "ns",
          [("kind", .str "ConfigMap"),
           ("metadata", .dict [("name", .str "X"), ("namespace", .str "ns")]),
           ("data", .dict [("b", .int 2)])]⟩]
      = [Option.some
          [("kind", .str "ConfigMap"),
           ("metadata", .dict [("name", .str "X"), ("namespace", .str "ns")]),
           ("data", .dict [("a", .int 1), ("b", .int 2)])]]
    ∧ _apply_manifest_overrides
        [Option.some
          [("kind", .str "ConfigMap"),
           ("metadata", .dict [("name", .str "X"), ("namespace", .str "ns")]),
           ("data", .dict [("a", .int 1)])]]
        [⟨"ConfigMap", Option.some "Y", Option.some "ns",
          [("data", .dict [("b", .int 2)])]⟩]
      = [Option.some
          [("kind", .str "ConfigMap"),
           ("metadata", .dict [("name", .str "X"), ("namespace", .str "ns")]),
           ("data", .dict [("a", .int 1)])]]) := by
  refine ⟨?_, deepMerge_lookup_fresh, deepMerge_lookup_nested,
    deepMerge_lookup_replace, rfl, rfl⟩
  intro docs overrides
  unfold _apply_manifest_overrides
  apply List.map_congr_left
  intro d _
  cases d with
  | none => rfl
  | some doc => simp [applyFirstOverride_eq_find]

/-- C6 witness: the nested key-by-key merge statement applied at the
claim's ConfigMap data dicts. -/
theorem c6_manifest_override_merge_witness :
    pyGet?
        (_deep_merge_dict [("data", ConfigValue.dict [("a", .int 1)])]
          [("data", ConfigValue.dict [("b", .int 2)])])
        "data"
      = Option.some (.dict [("a", .int 1), ("b", .int 2)]) :=
  c6_manifest_override_merge.2.2.1
    [("data", ConfigValue.dict [("b", .int 2)])]
    [("data", ConfigValue.dict [("a", .int 1)])]
    "data" [("a", .int 1)] [("b", .int 2)] (by decide) rfl rfl

/-- C7: leadership gating.  A reconcile invocation on a non-leader unit
produces no side effects at all — no relation databag write, no resource
apply or delete, no Pebble service replan — and a data-send event on a
non-leader leaves every databag exactly as it was. -/
theorem c7_non_leader_no_side_effects :
    (∀ inputs : CharmInputs, IstioCoreCharm._reconcile false inputs = [])
  ∧ (∀ (α : Type) (dump : α → Databag) (data : α) (st : SenderState),
        Sender.handle_send_data_event dump false data st = st) :=
  ⟨fun _ => rfl, fun _ _ _ _ => rfl⟩

/-- C8: a failing istioctl subprocess makes `manifest_generate` raise an
`IstioctlError` carrying the return code and the captured stderr, with the
return code printed inside the message, and no manifest string is returned;
a succeeding subprocess yields exactly the decoded stdout, with the
override merge applied precisely when `overrides` is non-empty. -/
theorem c8_manifest_generate_error_surfacing :
    (∀ (ictl : Istioctl) (components : List String) (overrides : List OverrideResource)
        (yamlLoadAll : String → List (Option PyDict))
        (yamlDumpAll : List (Option PyDict) → String) (res : SubprocessResult),
        res.returncode ≠ 0 →
        ∃ e : IstioctlError,
          Istioctl.manifest_generate ictl components overrides yamlLoadAll yamlDumpAll res
              = Except.error e
            ∧ e.returncode = Option.some res.returncode
            ∧ e.stderr = Option.some res.stderr
            ∧ ∃ pre post, e.message = pre ++ toString res.returncode ++ post)
  ∧ (∀ (ictl : Istioctl) (components : List String)
        (yamlLoadAll : String → List (Option PyDict))
        (yamlDumpAll : List (Option PyDict) → String) (res : SubprocessResult),
        res.returncode = 0 →
        Istioctl.manifest_generate ictl components [] yamlLoadAll yamlDumpAll res
          = Except.ok res.stdout)
  ∧ (∀ (ictl : Istioctl) (components : List String) (overrides : List OverrideResource)
        (yamlLoadAll : String → List (Option PyDict))
        (yamlDumpAll : List (Option PyDict) → String) (res : SubprocessResult),
        res.returncode = 0 → overrides ≠ [] →
        Istioctl.manifest_generate ictl components overrides yamlLoadAll yamlDumpAll res
          = Except.ok (yamlDumpAll
              (_apply_manifest_overrides (yamlLoadAll res.stdout) overrides))) := by
  refine ⟨?_, ?_, ?_⟩
  · intro ictl components overrides yload ydump res h
    have hrc : (res.returncode != 0) = true := by simpa using h
    refine ⟨⟨"Failed to run command "
        ++ String.intercalate " "
            (ictl.istioctl_path
              :: (["manifest", "generate"] ++ Istioctl._args ictl
                  ++ components.flatMap (fun c => ["--set", "components." ++ c ++ ".enabled=true"])))
        ++ " with error code " ++ toString res.returncode,
      Option.some res.returncode, Option.some res.stdout, Option.some res.stderr⟩, ?_, rfl, rfl, ?_⟩
    · unfold Istioctl.manifest_generate Istioctl._run
      simp only [hrc, if_true]
    · refine ⟨"Failed to run command "
          ++ String.intercalate " "
              (ictl.istioctl_path
                :: (["manifest", "generate"] ++ Istioctl._args ictl
                    ++ components.flatMap (fun c => ["--set", "components." ++ c ++ ".enabled=true"])))
          ++ " with error code ", "", ?_⟩
      simp [String.append_assoc]
  · intro ictl components yload ydump res h
    unfold Istioctl.manifest_generate Istioctl._run
    have hrc : (res.returncode != 0) = false := by simpa using h
    simp [hrc]
  · intro ictl components overrides yload ydump res h hov
    unfold Istioctl.manifest_generate Istioctl._run
    have hrc : (res.returncode != 0) = false := by simpa using h
    have hov2 : overrides.isEmpty = false := by
      cases overrides with
      | nil => exact absurd rfl hov
      | cons a b => rfl
    simp [hrc, hov2]

/-- C8 witness: exit code 1 with stderr `"boom"` surfaces an error carrying
return code and stderr, and a success with no overrides returns the
manifest stdout unchanged. -/
theorem c8_manifest_generate_error_surfacing_witness :
    (∃ e : IstioctlError,
        Istioctl.manifest_generate ⟨"istioctl", "ns", "empty", []⟩ [] []
            (fun _ => []) (fun _ => "") ⟨1, "partial", "boom"⟩
          = Except.error e
        ∧ e.returncode = Option.some 1
        ∧ e.stderr = Option.some "boom"
        ∧ ∃ pre post, e.message = pre ++ toString (1 : Int) ++ post)
  ∧ Istioctl.manifest_generate ⟨"istioctl", "ns", "empty", []⟩ [] []
        (fun _ => []) (fun _ => "") ⟨0, "manifests", ""⟩
      = Except.ok "manifests" :=
  ⟨(c8_manifest_generate_error_surfacing.1 ⟨"istioctl", "ns", "empty", []⟩ [] []
      (fun _ => []) (fun _ => "") ⟨1, "partial", "boom"⟩ (by decide)),
   (c8_manifest_generate_error_surfacing.2.1 ⟨"istioctl", "ns", "empty", []⟩ []
      (fun _ => []) (fun _ => "") ⟨0, "manifests", ""⟩ rfl)⟩

/-- C9 (code evaluated at the failing input): on a ready
istio-ingress-config relation whose remote application is named `remote`
and which supplies `ext_authz_service_name=oauth-service`,
`ext_authz_port=8080` (the repository test fixture), the reconcile step
publishes the provider name `ext_authz-remote` — and publishes the very
same name when the peer-supplied service/port fields change, so the
published name is derived from the remote application name only, not from
any stable hash of the peer-supplied fields (the repository's own test
expects `ext_authz-remote-<sha256("oauth-service:8080")>`). -/
theorem c9_provider_name_not_derived_from_peer_fields :
    IstioCoreCharm._publish_ext_authz_provider_names
        [⟨"remote", [("ext_authz_service_name", "oauth-service"), ("ext_authz_port", "8080")]⟩]
      = [.writeRelationData "istio-ingress-config" "remote"
          [("ext_authz_provider_name", "ext_authz-remote")]]
  ∧ IstioCoreCharm._publish_ext_authz_provider_names
        [⟨"remote", [("ext_authz_service_name", "other-service"), ("ext_authz_port", "9999")]⟩]
      = [.writeRelationData "istio-ingress-config" "remote"
          [("ext_authz_provider_name", "ext_authz-remote")]] :=
  ⟨rfl, rfl⟩

/-- The relation loop of `_external_authorizer_providers` stops at the
first ready relation carrying the fake (sentinel) configuration, returning
only the entries accumulated so far. -/
theorem externalAuthorizerProvidersAux_stops_at_fake :
    ∀ (pre : List IngressRelation) (acc : List ConfigValue) (rel : IngressRelation)
      (post : List IngressRelation),
    (∀ r ∈ pre, IngressConfigRequirer.is_fake_authz_config r.remoteData = false) →
    IngressConfigRequirer.is_ready rel.remoteData = true →
    IngressConfigRequirer.is_fake_authz_config rel.remoteData = true →
    externalAuthorizerProvidersAux acc (pre ++ rel :: post)
      = externalAuthorizerProvidersAux acc pre
  | [], acc, rel, post, _, hready, hfake => by
      simp [externalAuthorizerProvidersAux, hready, hfake]
  | r :: pre, acc, rel, post, hpre, hready, hfake => by
      have htail : ∀ q ∈ pre, IngressConfigRequirer.is_fake_authz_config q.remoteData = false :=
        fun q hq => hpre q (by simp [hq])
      by_cases hr : IngressConfigRequirer.is_ready r.remoteData
      · have hrf : IngressConfigRequirer.is_fake_authz_config r.remoteData = false :=
          hpre r (by simp)
        simp only [List.cons_append, externalAuthorizerProvidersAux, hr, if_true, hrf,
          Bool.false_eq_true, if_false]
        exact externalAuthorizerProvidersAux_stops_at_fake pre _ rel post htail hready hfake
      · simp only [List.cons_append, externalAuthorizerProvidersAux, hr, Bool.false_eq_true,
          if_false]
        exact externalAuthorizerProvidersAux_stops_at_fake pre acc rel post htail hready hfake

/-- C10 (amended): `clear()` publishes the fixed sentinel pair
(`fake_host`, `"5432"`) into every relation databag; any databag so updated
is recognized by `is_fake_authz_config`, which holds exactly for databags
whose validated provider data carries the sentinel pair; during reconcile
the provider list contains no entry derived from a sentinel relation and
the entries of ready relations *before* the first sentinel relation are
exactly preserved — but the loop returns at the sentinel relation, so
relations after it contribute no entries (they are not treated "as if the
sentinel relation did not exist"; see the counterexample). -/
theorem c10_sentinel_semantics :
    (∀ relations : List Databag,
        IngressConfigProvider.clear relations
          = Except.ok (relations.map (fun bag =>
              pyUpdate bag
                [("ext_authz_service_name", FAKE_EXT_AUTHZ_SERVICE_NAME),
                 ("ext_authz_port", FAKE_EXT_AUTHZ_PORT)])))
  ∧ (∀ bag : Databag,
        IngressConfigRequirer.is_fake_authz_config
          (pyUpdate bag
            [("ext_authz_service_name", FAKE_EXT_AUTHZ_SERVICE_NAME),
             ("ext_authz_port", FAKE_EXT_AUTHZ_PORT)]) = true)
  ∧ (∀ bag : Databag,
        IngressConfigRequirer.is_fake_authz_config bag = true ↔
          ∃ d, IngressConfigRequirer.get_provider_ext_authz_info bag = Option.some d
            ∧ d.ext_authz_service_name = Option.some FAKE_EXT_AUTHZ_SERVICE_NAME
            ∧ d.ext_authz_port = Option.some FAKE_EXT_AUTHZ_PORT)
  ∧ (∀ (pre post : List IngressRelation) (rel : IngressRelation),
        (∀ r ∈ pre, IngressConfigRequirer.is_fake_authz_config r.remoteData = false) →
        IngressConfigRequirer.is_ready rel.remoteData = true →
        IngressConfigRequirer.is_fake_authz_config rel.remoteData = true →
        IstioCoreCharm._external_authorizer_providers (pre ++ rel :: post)
          = IstioCoreCharm._external_authorizer_providers pre) := by
  refine ⟨fun relations => rfl, ?_, ?_, ?_⟩
  · intro bag
    have hform : pyUpdate bag
        [("ext_authz_service_name", FAKE_EXT_AUTHZ_SERVICE_NAME),
         ("ext_authz_port", FAKE_EXT_AUTHZ_PORT)]
        = pySet (pySet bag "ext_authz_service_name" FAKE_EXT_AUTHZ_SERVICE_NAME)
            "ext_authz_port" FAKE_EXT_AUTHZ_PORT := rfl
    rw [hform]
    have hport : pyGet? (pySet (pySet bag "ext_authz_service_name" FAKE_EXT_AUTHZ_SERVICE_NAME)
        "ext_authz_port" FAKE_EXT_AUTHZ_PORT) "ext_authz_port"
        = Option.some FAKE_EXT_AUTHZ_PORT := pyGet?_pySet_self _ _ _
    have hname : pyGet? (pySet (pySet bag "ext_authz_service_name" FAKE_EXT_AUTHZ_SERVICE_NAME)
        "ext_authz_port" FAKE_EXT_AUTHZ_PORT) "ext_authz_service_name"
        = Option.some FAKE_EXT_AUTHZ_SERVICE_NAME := by
      rw [pyGet?_pySet_ne _ _ _ _ (by decide)]
      exact pyGet?_pySet_self _ _ _
    have hne := pySet_ne_nil (pySet bag "ext_authz_service_name" FAKE_EXT_AUTHZ_SERVICE_NAME)
      "ext_authz_port" FAKE_EXT_AUTHZ_PORT
    have hemp : (pySet (pySet bag "ext_authz_service_name" FAKE_EXT_AUTHZ_SERVICE_NAME)
        "ext_authz_port" FAKE_EXT_AUTHZ_PORT).isEmpty = false := by
      by_cases h : (pySet (pySet bag "ext_authz_service_name" FAKE_EXT_AUTHZ_SERVICE_NAME)
          "ext_authz_port" FAKE_EXT_AUTHZ_PORT).isEmpty = true
      · exact absurd (List.isEmpty_iff.mp h) hne
      · simpa using h
    have hval : ProviderIngressConfigData.validate
        (pySet (pySet bag "ext_authz_service_name" FAKE_EXT_AUTHZ_SERVICE_NAME)
          "ext_authz_port" FAKE_EXT_AUTHZ_PORT)
        = Except.ok ⟨Option.some FAKE_EXT_AUTHZ_SERVICE_NAME, Option.some FAKE_EXT_AUTHZ_PORT⟩ := by
      unfold ProviderIngressConfigData.validate
      rw [hname, hport]
      rfl
    unfold IngressConfigRequirer.is_fake_authz_config
      IngressConfigRequirer.get_provider_ext_authz_info
    rw [hemp]
    simp only [FAKE_EXT_AUTHZ_SERVICE_NAME, FAKE_EXT_AUTHZ_PORT] at hval ⊢
    rw [hval]
    simp
  · intro bag
    unfold IngressConfigRequirer.is_fake_authz_config
    cases hg : IngressConfigRequirer.get_provider_ext_authz_info bag with
    | none => simp
    | some d =>
        simp only [Bool.and_eq_true, beq_iff_eq]
        constructor
        · rintro ⟨h1, h2⟩
          exact ⟨d, rfl, h1, h2⟩
        · rintro ⟨d2, hd2, h1, h2⟩
          cases hd2
          exact ⟨h1, h2⟩
  · intro pre post rel hpre hready hfake
    exact externalAuthorizerProvidersAux_stops_at_fake pre [] rel post hpre hready hfake

/-- C10 witness: with one ready non-sentinel relation before a sentinel
relation and another ready relation after it, the provider list equals the
one computed from the leading relation alone. -/
theorem c10_sentinel_semantics_witness :
    IstioCoreCharm._external_authorizer_providers
        [⟨"good-app", [("ext_authz_service_name", "oauth"), ("ext_authz_port", "8080")]⟩,
         ⟨"sentinel-app", [("ext_authz_service_name", "fake_host"), ("ext_authz_port", "5432")]⟩,
         ⟨"late-app", [("ext_authz_service_name", "late"), ("ext_authz_port", "9090")]⟩]
      = IstioCoreCharm._external_authorizer_providers
          [⟨"good-app", [("ext_authz_service_name", "oauth"), ("ext_authz_port", "8080")]⟩] :=
  c10_sentinel_semantics.2.2.2
    [⟨"good-app", [("ext_authz_service_name", "oauth"), ("ext_authz_port", "8080")]⟩]
    [⟨"late-app", [("ext_authz_service_name", "late"), ("ext_authz_port", "9090")]⟩]
    ⟨"sentinel-app", [("ext_authz_service_name", "fake_host"), ("ext_authz_port", "5432")]⟩
    (by
      intro r hr
      cases List.mem_singleton.mp hr
      rfl)
    rfl rfl

/-- C10 counterexample: a ready sentinel relation placed *before* another
ready relation makes `_external_authorizer_providers` return immediately,
dropping the later relation's entry — the result is `[]`, not the entry
list the other relation would produce if the sentinel relation did not
exist. -/
theorem c10_counterexample_sentinel_drops_later_relations :
    IstioCoreCharm._external_authorizer_providers
        [⟨"sentinel-app", [("ext_authz_service_name", "fake_host"), ("ext_authz_port", "5432")]⟩,
         ⟨"good-app", [("ext_authz_service_name", "oauth"), ("ext_authz_port", "8080")]⟩]
      = []
  ∧ IstioCoreCharm._external_authorizer_providers
        [⟨"good-app", [("ext_authz_service_name", "oauth"), ("ext_authz_port", "8080")]⟩]
      = [extAuthzProviderEntry "good-app" ⟨Option.some "oauth", Option.some "8080"⟩] :=
  ⟨rfl, rfl⟩
